import Mathlib

/-!
# 100Days-to-UTME — question-acquisition pipeline, shallow embedding

This file embeds the question-acquisition pipeline of the repository
(`question-parser.js`, `quiz-launcher.js`, `quiz-app.js`, and the parser /
fallback-loader variant shipped as an unnamed source file) and settles the
specification claims against it.

Conventions of the embedding:
* JS strings are `String` (a wrapper around `List Char` in this Lean version);
  all character-level work happens on `List Char`.
* JS `undefined` / `null` for an optional field is `Option`.
* Network fetches are modelled by a pure environment `String → Option String`
  mapping a URL to the fetched body (`none` = network/HTTP failure).
* JS objects used as `{A:…,B:…}` maps are association lists
  `List (String × String)` with JS assignment semantics (`setOpt`).
-/

/-- JS whitespace as used by `String.prototype.trim` and `\s` for the ASCII
inputs this pipeline consumes. -/
def isWs (c : Char) : Bool :=
  c = ' ' || c = '\t' || c = '\r' || c = '\n' || c = Char.ofNat 11 || c = Char.ofNat 12

/-- JS `text.trim()` on the character list: drop whitespace from both ends. -/
def trimChars (l : List Char) : List Char :=
  ((l.dropWhile isWs).reverse.dropWhile isWs).reverse

/-- JS `s.trim()`. -/
def trimStr (s : String) : String := ⟨trimChars s.data⟩

/-- JS `str.split(sep)` for a one-character separator: the (possibly empty)
chunks between occurrences of `sep`; `"".split(sep)` is `[""]`. -/
def splitOnChar (sep : Char) : List Char → List (List Char)
  | [] => [[]]
  | c :: rest =>
    if c = sep then [] :: splitOnChar sep rest
    else
      match splitOnChar sep rest with
      | [] => [[c]]
      | l :: ls => (c :: l) :: ls

/-- JS `text.split('\n')`. -/
def splitLines (l : List Char) : List (List Char) := splitOnChar '\n' l

/-- JS `str.startsWith(pat)`: first argument is the pattern. -/
def startsWithChars : List Char → List Char → Bool
  | [], _ => true
  | _ :: _, [] => false
  | p :: ps, c :: cs => if p = c then startsWithChars ps cs else false

/-- JS `str.includes(pat)`. -/
def containsSub (pat : List Char) : List Char → Bool
  | [] => startsWithChars pat []
  | c :: cs => startsWithChars pat (c :: cs) || containsSub pat cs

/-- JS `parseInt` on a list of decimal digit characters. -/
def digitsToNat (l : List Char) : Nat :=
  l.foldl (fun acc c => acc * 10 + (c.toNat - '0'.toNat)) 0

/-- The header prefix `'JAMB '` skipped by the parser. -/
def jambTag : List Char := ['J', 'A', 'M', 'B', ' ']

/-- The banner marker `'EXCEPTIONAL QUESTIONS'` skipped by the parser. -/
def bannerTag : List Char :=
  ['E', 'X', 'C', 'E', 'P', 'T', 'I', 'O', 'N', 'A', 'L', ' ',
   'Q', 'U', 'E', 'S', 'T', 'I', 'O', 'N', 'S']

/-- The tag `'Answer:'` (7 characters). -/
def answerTag : List Char := ['A', 'n', 's', 'w', 'e', 'r', ':']

/-- The tag `'Explanation:'` (12 characters). -/
def explanationTag : List Char :=
  ['E', 'x', 'p', 'l', 'a', 'n', 'a', 't', 'i', 'o', 'n', ':']

/-- The tag `'Exception:'` (10 characters). -/
def exceptionTag : List Char :=
  ['E', 'x', 'c', 'e', 'p', 't', 'i', 'o', 'n', ':']

/-- A parsed question record, the object literal built by
`QuestionParser.parse` (`question-parser.js`, lines 51–59). -/
structure Question where
  id : Nat
  subject : String
  text : String
  options : List (String × String)
  answer : Option String
  explanation : String
  exception : String
deriving DecidableEq, Repr

/-- JS object assignment `obj[k] = v` on an association list: overwrite in
place if the key is present, else append (JS insertion order). -/
def setOpt (m : List (String × String)) (k : String) (v : String) :
    List (String × String) :=
  match m with
  | [] => [(k, v)]
  | (k', v') :: rest => if k' = k then (k, v) :: rest else (k', v') :: setOpt rest k v

/-- JS object read `obj[k]` on an association list. -/
def lookupS {α : Type} (m : List (String × α)) (k : String) : Option α :=
  match m with
  | [] => none
  | (k', v) :: rest => if k' = k then some v else lookupS rest k

/-- The regex `^(\d+)\.\s+(.+)$` of `QuestionParser.parse` applied to an
already-trimmed line: leading digits, a literal `.`, at least one whitespace
character, then a non-empty remainder.  Returns `parseInt` of the digits and
the remainder. -/
def matchQuestion (l : List Char) : Option (Nat × List Char) :=
  if (l.takeWhile Char.isDigit).isEmpty then none
  else
    match l.dropWhile Char.isDigit with
    | '.' :: r2 =>
      if (r2.takeWhile isWs).isEmpty || (r2.dropWhile isWs).isEmpty then none
      else some (digitsToNat (l.takeWhile Char.isDigit), r2.dropWhile isWs)
    | _ => none

/-- The regex `^([A-D])\.\s+(.+)$` applied to an already-trimmed line. -/
def matchOption (l : List Char) : Option (String × List Char) :=
  match l with
  | c1 :: c2 :: r2 =>
    if (c1 = 'A' ∨ c1 = 'B' ∨ c1 = 'C' ∨ c1 = 'D') ∧ c2 = '.' then
      if (r2.takeWhile isWs).isEmpty || (r2.dropWhile isWs).isEmpty then none
      else some (⟨[c1]⟩, r2.dropWhile isWs)
    else none
  | _ => none

/-- The parser's loop state: accumulated questions, the record under
construction, and the two collection flags. -/
structure PState where
  questions : List Question
  cur : Option Question
  collectingExplanation : Bool
  collectingException : Bool
deriving Repr

def initState : PState := ⟨[], none, false, false⟩

/-- The flush `if (currentQuestion) this.questions.push(currentQuestion)`. -/
def flushCur (cur : Option Question) : List Question :=
  match cur with
  | some q => [q]
  | none => []

/-- One iteration of the `for` loop of `QuestionParser.parse`
(`question-parser.js`, lines 34–109), on one raw line. -/
def stepLine (subject : String) (st : PState) (rawLine : List Char) : PState :=
  let l := trimChars rawLine
  if l.isEmpty || startsWithChars jambTag l || containsSub bannerTag l then st
  else
    match matchQuestion l with
    | some (n, rest) =>
      { questions := st.questions ++ flushCur st.cur
        cur := some
          { id := n, subject := subject, text := ⟨rest⟩, options := []
            answer := none, explanation := "", exception := "" }
        collectingExplanation := false
        collectingException := false }
    | none =>
      match matchOption l with
      | some (k, rest) =>
        match st.cur with
        | some q =>
          { st with cur := some { q with options := setOpt q.options k ⟨rest⟩ }
                    collectingExplanation := false, collectingException := false }
        | none => st
      | none =>
        if startsWithChars answerTag l then
          match st.cur with
          | some q =>
            -- `line.replace('Answer:', '').trim()`; 'Answer:' has 7 characters
            { st with cur := some { q with answer := some ⟨trimChars (l.drop 7)⟩ }
                      collectingExplanation := false, collectingException := false }
          | none => st
        else if startsWithChars explanationTag l then
          match st.cur with
          | some q =>
            -- 'Explanation:' has 12 characters
            { st with cur := some { q with explanation := ⟨trimChars (l.drop 12)⟩ }
                      collectingExplanation := true, collectingException := false }
          | none => st
        else if startsWithChars exceptionTag l then
          match st.cur with
          | some q =>
            -- 'Exception:' has 10 characters
            { st with cur := some { q with exception := ⟨trimChars (l.drop 10)⟩ }
                      collectingExplanation := false, collectingException := true }
          | none => st
        else if st.collectingExplanation then
          match st.cur with
          | some q =>
            { st with cur := some { q with explanation := q.explanation ++ ⟨' ' :: l⟩ } }
          | none => st
        else if st.collectingException then
          match st.cur with
          | some q =>
            { st with cur := some { q with exception := q.exception ++ ⟨' ' :: l⟩ } }
          | none => st
        else st

/-- Append the final record under construction (`question-parser.js`,
lines 112–114). -/
def flushState (st : PState) : List Question :=
  st.questions ++ flushCur st.cur

/-- The parser `QuestionParser.parse(text, subject)` (`question-parser.js`, lines 27–117;
identical in the unnamed parser variant). -/
def parse (text subject : String) : List Question :=
  flushState ((splitLines text.data).foldl (stepLine subject) initState)

/-! ## Validator (`QuestionParser.validate`, `question-parser.js` lines 181–212) -/

/-- Validation errors contributed by one question at array index `idx`
(messages use the 1-based index, as in the source). -/
def validateOne (idx : Nat) (q : Question) : List String :=
  let n := Nat.repr (idx + 1)
  let keys := q.options.map Prod.fst
  (if q.text = "" then ["Question " ++ n ++ ": Missing question text"] else []) ++
  (if keys.length < 2 then ["Question " ++ n ++ ": Need at least 2 options"] else []) ++
  (match q.answer with
   | none => ["Question " ++ n ++ ": Missing answer"]
   | some a =>
     if a = "" then ["Question " ++ n ++ ": Missing answer"]
     else if keys.contains a then []
     else ["Question " ++ n ++ ": Answer \"" ++ a ++ "\" not in options [" ++
           String.intercalate ", " keys ++ "]"]) ++
  (q.options.foldr
    (fun kv acc =>
      (if kv.2 = "" ∨ trimStr kv.2 = "" then
         ["Question " ++ n ++ ": Empty option " ++ kv.1]
       else []) ++ acc)
    [])

/-- The validator `QuestionParser.validate()`: all errors over the parsed array.  A record
is accepted by this loose gate exactly when it contributes no error. -/
def validateErrors (qs : List Question) : List String :=
  (qs.enum.map (fun p => validateOne p.1 p.2)).flatten

/-- Modelled from the spec: the strict validation gate used by the resolver
chain (the data-validation step of `quiz-template.html` / the CI schema
checker `validate_questions.py`, neither of which is under `src/`): non-blank
`text`, all four of `options.A..D` present and non-blank, and `answer`
present and equal to one of `"A","B","C","D"`. -/
def strictValidate (q : Question) : Bool :=
  decide (trimStr q.text ≠ "") &&
  (["A", "B", "C", "D"].all fun k =>
    match lookupS q.options k with
    | some v => decide (trimStr v ≠ "")
    | none => false) &&
  (match q.answer with
   | some a => decide (a ∈ (["A", "B", "C", "D"] : List String))
   | none => false)

/-! ## Normalizer (`normalizeQuestions`, `quiz-app.js` lines 9–24) -/

/-- A raw record in the flat/nested wire shape accepted by
`normalizeQuestions` (fields may be absent). -/
structure RawNQ where
  id : Nat
  subject : Option String
  text : String
  optionA : Option String
  optionB : Option String
  optionC : Option String
  optionD : Option String
  options : Option (List (String × String))
  answer : Option String
  explanation : Option String
  exception : Option String
deriving DecidableEq, Repr

/-- JS `a || b` for a possibly-absent string `a`: an absent or empty string is
falsy and yields `b`. -/
def jsOrS (a : Option String) (b : String) : String :=
  match a with
  | some s => if s = "" then b else s
  | none => b

/-- The nested read `q.options && q.options[k]`. -/
def nestedOpt (opts : Option (List (String × String))) (k : String) : Option String :=
  match opts with
  | none => none
  | some m => lookupS m k

/-- The option pick `q.optionX || (q.options && q.options[X]) || ''`. -/
def pickOption (flat : Option String) (opts : Option (List (String × String)))
    (k : String) : String :=
  jsOrS flat (jsOrS (nestedOpt opts k) "")

/-- The body of the `map` in `normalizeQuestions(rawQuestions, subject)`:
normalize one raw record against the (possibly absent) `subject` hint. -/
def normalizeOne (subjectHint : Option String) (q : RawNQ) : Question :=
  { id := q.id
    subject := jsOrS q.subject (jsOrS subjectHint "General")
    text := q.text
    options :=
      [("A", pickOption q.optionA q.options "A"),
       ("B", pickOption q.optionB q.options "B"),
       ("C", pickOption q.optionC q.options "C"),
       ("D", pickOption q.optionD q.options "D")]
    answer := q.answer
    explanation := jsOrS q.explanation ""
    exception := jsOrS q.exception "" }

/-- The normalizer `normalizeQuestions(rawQuestions, subject)` (`quiz-app.js`, lines 9–24). -/
def normalizeQuestions (raws : List RawNQ) (subjectHint : Option String) :
    List Question :=
  raws.map (normalizeOne subjectHint)

/-- Modelled from the spec: the four-step subject resolution order the
specification ascribes to the normalizer — explicit field on the raw record,
else the `subjectHint` parameter, else ambient page-level subject metadata
when available, else the literal fallback `"General"`. -/
def specSubjectOrder (explicitS hint ambient : Option String) : String :=
  match explicitS with
  | some s => s
  | none =>
    match hint with
    | some h => h
    | none =>
      match ambient with
      | some a => a
      | none => "General"

/-! ## Quiz launcher (`quiz-launcher.js`) -/

/-- The map `QUIZ_CONFIG.questionBanks.github.subjects` (`quiz-launcher.js`,
lines 7–19). -/
def githubSubjects : List (String × String) :=
  [("Physics", "JAMB_Physics_Q1-35.txt"),
   ("Mathematics", "JAMB_Mathematics_Q1-35.txt"),
   ("English", "JAMB_English_Q1-35.txt"),
   ("Chemistry", "JAMB_Chemistry_Q1-35.txt"),
   ("Biology", "JAMB_Biology_Q1-35.txt"),
   ("Literature", "JAMB_Literature_Q1-35.txt"),
   ("Government", "JAMB_Government_Q1-35.txt"),
   ("CRS", "JAMB_CRS_Q1-35.txt"),
   ("Commerce", "JAMB_Commerce_Q1-35.txt"),
   ("Accounting", "JAMB_Accounting_Q1-35.txt"),
   ("Economics", "JAMB_Economics_Q1-35.txt")]

def githubBase : String :=
  "https://raw.githubusercontent.com/artificialiman/Questt/refs/heads/main"

/-- The URL builder `QuizLauncher.getQuestionUrl(subject)`; the active source `'github'`
always exists in the config, so only the unknown-subject throw remains. -/
def getQuestionUrl (subject : String) : Except String String :=
  match lookupS githubSubjects subject with
  | none => Except.error ("Subject \"" ++ subject ++ "\" not found")
  | some fn => Except.ok (githubBase ++ "/" ++ fn)

/-- The per-launcher subject cache `this.cache`. -/
abbrev Cache : Type := List (String × List Question)

/-- The loader `QuizLauncher.loadSubject(subject)` over a fetch environment.  Returns
the result, the updated cache, and the list of URLs actually fetched.
A cached entry is returned as-is (an empty cached array is truthy in JS);
`getQuestionUrl`'s throw and a failed `fetch` both escape as errors. -/
def loadSubject (env : String → Option String) (cache : Cache) (subject : String) :
    Except String (List Question) × Cache × List String :=
  match lookupS cache subject with
  | some qs => (Except.ok qs, cache, [])
  | none =>
    match getQuestionUrl subject with
    | Except.error e => (Except.error e, cache, [])
    | Except.ok url =>
      match env url with
      | none => (Except.error "HTTP error", cache, [url])
      | some text =>
        let qs := parse text subject
        (Except.ok qs, cache ++ [(subject, qs)], [url])

/-- Accumulator of `QuizLauncher.loadCluster`'s loop. -/
structure ClusterAcc where
  questions : List Question
  errors : List (String × String)
  cache : Cache
  log : List String

/-- The `for…of` loop body of `loadCluster`: try one subject, collecting its
questions or recording `{subject, error}`. -/
def clusterStep (env : String → Option String) (acc : ClusterAcc) (s : String) :
    ClusterAcc :=
  match loadSubject env acc.cache s with
  | (Except.ok qs, c', log) =>
    { acc with questions := acc.questions ++ qs, cache := c', log := acc.log ++ log }
  | (Except.error e, c', log) =>
    { acc with errors := acc.errors ++ [(s, e)], cache := c', log := acc.log ++ log }

/-- The multi-subject loader `QuizLauncher.loadCluster(subjects)` (`quiz-launcher.js`, lines 82–94):
per-subject failures are caught and recorded; if no questions at all were
collected the single exhaustion error is thrown, otherwise the non-empty
collection is returned together with the per-subject errors. -/
def loadCluster (env : String → Option String) (cache : Cache)
    (subjects : List String) :
    Except String (List Question × List (String × String)) × Cache × List String :=
  let acc := subjects.foldl (clusterStep env) ⟨[], [], cache, []⟩
  if acc.questions.isEmpty then
    (Except.error "No questions loaded for cluster.", acc.cache, acc.log)
  else
    (Except.ok (acc.questions, acc.errors), acc.cache, acc.log)

/-- The questions one subject contributes under a fetch environment and an
empty cache: empty on an unknown subject or a failed fetch, else the parse
of the fetched body. -/
def subjectYield (env : String → Option String) (s : String) : List Question :=
  match getQuestionUrl s with
  | Except.error _ => []
  | Except.ok url =>
    match env url with
    | none => []
    | some text => parse text s

/-! ## Fallback loader (unnamed parser variant: `SUBJECT_FILES`,
`_periodToDayRange`, `loadSubjectWithFallback`) -/

/-- The map `SUBJECT_FILES` (unnamed parser variant, lines 141–154). -/
def SUBJECT_FILES : List (String × String) :=
  [("Physics", "JAMB_Physics_Q1-35.txt"),
   ("Mathematics", "JAMB_Mathematics_Q1-35.txt"),
   ("Math", "JAMB_Mathematics_Q1-35.txt"),
   ("English", "JAMB_English_Q1-35.txt"),
   ("Chemistry", "JAMB_Chemistry_Q1-35.txt"),
   ("Biology", "JAMB_Biology_Q1-35.txt"),
   ("Literature", "JAMB_Literature_Q1-35.txt"),
   ("Government", "JAMB_Government_Q1-35.txt"),
   ("CRS", "JAMB_CRS_Q1-35.txt"),
   ("Commerce", "JAMB_Commerce_Q1-35.txt"),
   ("Accounting", "JAMB_Accounting_Q1-35.txt"),
   ("Economics", "JAMB_Economics_Q1-35.txt")]

def archiveBase : String :=
  "https://raw.githubusercontent.com/artificialiman/Questt-resources/refs/heads/main/archive"

def questtBase : String :=
  "https://raw.githubusercontent.com/artificialiman/Questt/refs/heads/main"

/-- JS `String(n).padStart(2, '0')`. -/
def padTwo (n : Nat) : String :=
  let r := Nat.repr n
  if r.length < 2 then "0" ++ r else r

/-- The map `_periodToDayRange(period)` (unnamed parser variant, lines 157–160):
`s = period*2 - 1`, rendered as `pad(s) + '-' + pad(s+1)`. -/
def periodToDayRange (period : Nat) : String :=
  let s := period * 2 - 1
  padTwo s ++ "-" ++ padTwo (s + 1)

/-- The archive-tier URL built by `loadSubjectWithFallback`. -/
def archiveUrl (period : Nat) (filename : String) : String :=
  archiveBase ++ "/day-" ++ periodToDayRange period ++ "/" ++ filename

/-- The live-tier URL built by `loadSubjectWithFallback`. -/
def liveUrl (filename : String) : String := questtBase ++ "/" ++ filename

/-- The fallback loader `loadSubjectWithFallback(subject, period)` (unnamed parser variant,
lines 169–203) over a fetch environment.  Tier 1 is the archive for the
current period, attempted only when `period && period >= 1`; tier 2 is the
live repo; both fetch failures and empty parses fall through, and `[]` is
returned silently when every tier fails.  The second component records the
URLs actually fetched, in order. -/
def loadSubjectWithFallback (env : String → Option String) (subject : String)
    (period : Option Nat) : List Question × List String :=
  match lookupS SUBJECT_FILES subject with
  | none => ([], [])
  | some fn =>
    let archStep : Option (List Question) × List String :=
      match period with
      | some p =>
        if 1 ≤ p then
          match env (archiveUrl p fn) with
          | some body =>
            let qs := parse body subject
            (if qs.isEmpty then none else some qs, [archiveUrl p fn])
          | none => (none, [archiveUrl p fn])
        else (none, [])
      | none => (none, [])
    match archStep with
    | (some qs, log) => (qs, log)
    | (none, log) =>
      match env (liveUrl fn) with
      | some body =>
        let qs := parse body subject
        if qs.isEmpty then ([], log ++ [liveUrl fn])
        else (qs, log ++ [liveUrl fn])
      | none => ([], log ++ [liveUrl fn])

/-! ## Embedded-data path (`QuizLauncher.convertEmbeddedData`,
`QuizLauncher.initializeFromUrl`) -/

/-- The page metadata `window.quizMetadata` as consumed by the launcher. -/
structure QuizMeta where
  subject : Option String
  timerMinutes : Option Nat
deriving DecidableEq, Repr

/-- One element of `window.quizData`, the flat wire shape produced by
`generate_quiz.py`. -/
structure EmbeddedQ where
  id : Nat
  text : String
  optionA : String
  optionB : String
  optionC : String
  optionD : String
  answer : String
  explanation : Option String
  exception : Option String
deriving DecidableEq, Repr

/-- The converter `QuizLauncher.convertEmbeddedData(rawData)` (`quiz-launcher.js`,
lines 50–60): `subject` is `(window.quizMetadata && window.quizMetadata.subject) || 'Practice'`. -/
def convertEmbeddedData (meta : Option QuizMeta) (rawData : List EmbeddedQ) :
    List Question :=
  rawData.map fun q =>
    { id := q.id
      subject := jsOrS (match meta with | some m => m.subject | none => none) "Practice"
      text := q.text
      options :=
        [("A", q.optionA), ("B", q.optionB), ("C", q.optionC), ("D", q.optionD)]
      answer := some q.answer
      explanation := jsOrS q.explanation ""
      exception := jsOrS q.exception "" }

/-- A cluster entry of `QUIZ_CONFIG.clusters`. -/
structure Cluster where
  name : String
  subjects : List String
deriving DecidableEq, Repr

/-- The cluster table `QUIZ_CONFIG.clusters` (`quiz-launcher.js`, lines 25–37). -/
def clustersConfig : List (String × List Cluster) :=
  [("science",
    [⟨"Science Cluster A", ["Mathematics", "English", "Physics", "Chemistry"]⟩,
     ⟨"Science Cluster B", ["Biology", "English", "Physics", "Chemistry"]⟩]),
   ("art",
    [⟨"Arts Cluster A", ["English", "Literature", "Government", "CRS"]⟩]),
   ("commercial",
    [⟨"Commercial Cluster A", ["English", "Accounting", "Commerce", "Economics"]⟩,
     ⟨"Commercial Cluster B", ["English", "Mathematics", "Economics", "Government"]⟩])]

/-- JS `parseInt(str)` restricted to the base-10 case used here: parse the
leading decimal digits of the trimmed string; `none` models `NaN`. -/
def parseIntJS (s : String) : Option Nat :=
  let t := trimChars s.data
  let digits := t.takeWhile Char.isDigit
  if digits.isEmpty then none else some (digitsToNat digits)

/-- The lookup `QuizLauncher.getCluster(stream, clusterIndex)` (`quiz-launcher.js`,
lines 96–100).  An out-of-range or `NaN` index leaves JS with `undefined`,
whose later `.subjects` access throws a `TypeError` at the caller; that throw
is modelled as the error case here. -/
def getCluster (stream : String) (idx : Option Nat) : Except String Cluster :=
  match lookupS clustersConfig stream with
  | none => Except.error ("Invalid stream: " ++ stream)
  | some cls =>
    match idx with
    | some i =>
      match cls.get? i with
      | some c => Except.ok c
      | none => Except.error "TypeError: undefined cluster"
    | none => Except.error "TypeError: undefined cluster"

/-- The page context `initializeFromUrl` reads: embedded data, metadata, the
three URL parameters, and the network. -/
structure LauncherEnv where
  quizData : Option (List EmbeddedQ)
  quizMetadata : Option QuizMeta
  pSubject : Option String
  pStream : Option String
  pCluster : Option String
  pSubjects : Option String
  fetchEnv : String → Option String

/-- The remote-fetch fallback path of `initializeFromUrl` (`quiz-launcher.js`,
lines 115–134), on a launcher whose cache is `cache`.  Returns the result and
the list of URLs fetched.  (The `?subjects=` list is split on `','`.) -/
def fallbackPath (env : LauncherEnv) (cache : Cache) :
    Except String (List Question) × List String :=
  match env.pSubject with
  | some s =>
    let (r, _, log) := loadSubject env.fetchEnv cache s
    (r, log)
  | none =>
    match env.pStream with
    | some st =>
      let idxStr := match env.pCluster with
        | some c => if c = "" then "0" else c
        | none => "0"
      match getCluster st (parseIntJS idxStr) with
      | Except.error e => (Except.error e, [])
      | Except.ok cl =>
        match loadCluster env.fetchEnv cache cl.subjects with
        | (Except.error e, _, log) => (Except.error e, log)
        | (Except.ok (qs, _), _, log) => (Except.ok qs, log)
    | none =>
      match env.pSubjects with
      | some ss =>
        let subjects := (splitOnChar ',' ss.data).map (fun l => (⟨l⟩ : String))
        match loadCluster env.fetchEnv cache subjects with
        | (Except.error e, _, log) => (Except.error e, log)
        | (Except.ok (qs, _), _, log) => (Except.ok qs, log)
      | none =>
        (Except.error
          ("No questions found. Open a generated quiz file (e.g. quiz-mathematics.html) " ++
           "or add ?subject=Mathematics to the URL."), [])

/-- The entry point `QuizLauncher.initializeFromUrl()` (`quiz-launcher.js`, lines 102–135):
when `window.quizData` is a non-empty array the embedded questions are
converted and returned with no fetch at all (the embedded branch also syncs
`config.duration` from metadata, a config-only effect not observable in any
claim); otherwise the URL-parameter fallback path runs. -/
def initializeFromUrl (env : LauncherEnv) (cache : Cache) :
    Except String (List Question) × List String :=
  match env.quizData with
  | some l =>
    if l.isEmpty then fallbackPath env cache
    else (Except.ok (convertEmbeddedData env.quizMetadata l), [])
  | none => fallbackPath env cache

/-! ## Document constructors and concrete inputs used by the claims -/

/-- A payload string that can be interpolated into one line of a question
document and re-extracted verbatim: non-empty, single-line, and already
trimmed (no leading or trailing whitespace). -/
def goodPayload (s : String) : Prop :=
  s.data ≠ [] ∧ '\n' ∉ s.data ∧
  s.data.dropWhile isWs = s.data ∧
  s.data.reverse.dropWhile isWs = s.data.reverse

instance goodPayloadDecidable (s : String) : Decidable (goodPayload s) := by
  unfold goodPayload
  infer_instance

/-- The numbered question line `<digits>. <text>`. -/
def qLine (ds : List Char) (qtext : String) : List Char :=
  ds ++ '.' :: ' ' :: qtext.data

/-- An option line `<letter>. <text>`. -/
def optLine (k : Char) (o : String) : List Char :=
  k :: '.' :: ' ' :: o.data

/-- The answer line `Answer: <text>`. -/
def ansLine (ans : String) : List Char :=
  answerTag ++ ' ' :: ans.data

/-- The explanation line `Explanation: <text>`. -/
def explLine (e : String) : List Char :=
  explanationTag ++ ' ' :: e.data

/-- A well-formed single-question document: one numbered question line, the
four option lines A–D, one `Answer:` line and one single-line
`Explanation:` line. -/
def singleQuestionDoc (ds : List Char) (qtext oa ob oc od ans expl : String) :
    String :=
  ⟨qLine ds qtext ++ '\n' ::
   (optLine 'A' oa ++ '\n' ::
    (optLine 'B' ob ++ '\n' ::
     (optLine 'C' oc ++ '\n' ::
      (optLine 'D' od ++ '\n' ::
       (ansLine ans ++ '\n' :: explLine expl)))))⟩

/-- The record shape produced by the parser, as a decidable check: non-empty
`text`, option keys among `A..D` with non-empty stored values, and an
`answer` that, when present, is its own trim.  (`explanation` and
`exception` are `String`-typed throughout, the remaining part of the
invariant.) -/
def recordShapeOk (q : Question) : Bool :=
  decide (q.text ≠ "") &&
  (q.options.all fun kv =>
    decide (kv.1 ∈ (["A", "B", "C", "D"] : List String)) && decide (kv.2 ≠ "")) &&
  (match q.answer with
   | none => true
   | some s => decide (trimChars s.data = s.data))

/-- The record of the validator-gate claim:
`{text:"Q", options:{A:"x",B:"y"}, answer:"A"}`. -/
def recC3 : Question :=
  { id := 1, subject := "S", text := "Q", options := [("A", "x"), ("B", "y")]
    answer := some "A", explanation := "", exception := "" }

/-- A complete four-option record, for contrast with `recC3`. -/
def recComplete : Question :=
  { id := 2, subject := "S", text := "Q2"
    options := [("A", "w"), ("B", "x"), ("C", "y"), ("D", "z")]
    answer := some "B", explanation := "", exception := "" }

/-- A raw record carrying both the flat field `optionA : ""` and the nested
entry `options.A = "y"`. -/
def rawC7 : RawNQ :=
  { id := 7, subject := none, text := "T", optionA := some "", optionB := none
    optionC := none, optionD := none, options := some [("A", "y")]
    answer := some "A", explanation := none, exception := none }

/-- A raw record with no explicit subject field. -/
def rawC8 : RawNQ :=
  { id := 8, subject := none, text := "T", optionA := some "a", optionB := some "b"
    optionC := some "c", optionD := some "d", options := none
    answer := some "A", explanation := none, exception := none }

/-- A document whose source numbering repeats the number 1. -/
def dupIdDoc : String := "1. first question\n1. second question"

/-- A well-formed body for one Physics question. -/
def bodyOneQ : String := "1. Q?\nA. w\nB. x\nC. y\nD. z\nAnswer: A"

/-- A well-formed body holding two questions. -/
def bodyTwoQ : String :=
  "1. Q?\nA. w\nB. x\nC. y\nD. z\nAnswer: A\n2. R?\nA. p\nB. q\nC. r\nD. s\nAnswer: B"

/-- A fetch environment serving `bodyOneQ` from the period-3 archive tier and
`bodyTwoQ` (more records) from the live tier. -/
def envArchiveWins : String → Option String := fun url =>
  if url = archiveUrl 3 "JAMB_Physics_Q1-35.txt" then some bodyOneQ
  else if url = liveUrl "JAMB_Physics_Q1-35.txt" then some bodyTwoQ
  else none

/-- A fetch environment in which every fetch fails. -/
def envAllFail : String → Option String := fun _ => none

/-- A fetch environment serving `bodyOneQ` for the launcher's Physics URL. -/
def envGithubPhysics : String → Option String := fun url =>
  if url = githubBase ++ "/JAMB_Physics_Q1-35.txt" then some bodyOneQ else none

/-- One embedded question in the `generate_quiz.py` wire shape. -/
def embeddedQ1 : EmbeddedQ :=
  { id := 1, text := "t", optionA := "a", optionB := "b", optionC := "c"
    optionD := "d", answer := "A", explanation := none, exception := none }

/-- A page context with a non-empty embedded payload and a fetch environment
that would serve data if it were ever consulted. -/
def envEmbedded : LauncherEnv :=
  { quizData := some [embeddedQ1]
    quizMetadata := some { subject := some "Math", timerMinutes := some 20 }
    pSubject := some "Physics", pStream := none, pCluster := none
    pSubjects := none, fetchEnv := envGithubPhysics }

/-- Does one of `lines` open a record with exactly this id and text? -/
def lineGivesId (lines : List (List Char)) (q : Question) : Bool :=
  lines.any fun l => decide (matchQuestion (trimChars l) = some (q.id, q.text.data))

/-! ## Generic list and trimming lemmas -/

theorem dropWhile_cons_eq_self {p : Char → Bool} {c : Char} {t : List Char}
    (h : (c :: t).dropWhile p = c :: t) : p c = false := by
  by_contra hc
  rw [List.dropWhile_cons_of_pos (by simpa using hc)] at h
  have hlen := (List.dropWhile_sublist (l := t) p).length_le
  rw [h] at hlen
  simp at hlen

theorem head_dropWhile_false {p : Char → Bool} :
    ∀ {l : List Char} {c : Char} {t : List Char}, l.dropWhile p = c :: t → p c = false := by
  intro l
  induction l with
  | nil => intro c t h; simp [List.dropWhile] at h
  | cons a as ih =>
    intro c t h
    by_cases ha : p a
    · rw [List.dropWhile_cons_of_pos ha] at h
      exact ih h
    · rw [List.dropWhile_cons_of_neg ha] at h
      cases h
      simpa using ha

theorem dropWhile_dropWhile (p : Char → Bool) (l : List Char) :
    (l.dropWhile p).dropWhile p = l.dropWhile p := by
  cases h : l.dropWhile p with
  | nil => simp
  | cons c t =>
    rw [List.dropWhile_cons_of_neg]
    simp [head_dropWhile_false h]

theorem dropWhile_self_of_head {p : Char → Bool} {l : List Char}
    (h : ∀ c, l.head? = some c → p c = false) : l.dropWhile p = l := by
  cases l with
  | nil => simp
  | cons c t => exact List.dropWhile_cons_of_neg (by simp [h c rfl])

theorem getLast?_dropWhile {p : Char → Bool} {l : List Char}
    (h : l.dropWhile p ≠ []) : (l.dropWhile p).getLast? = l.getLast? := by
  induction l with
  | nil => simp at h
  | cons a as ih =>
    by_cases ha : p a
    · rw [List.dropWhile_cons_of_pos ha] at h ⊢
      rw [ih h]
      cases hn : as with
      | nil => rw [hn] at h; simp at h
      | cons b bs => simp [List.getLast?_cons_cons]
    · rw [List.dropWhile_cons_of_neg ha]

theorem trim_keep {l : List Char} (h1 : l.dropWhile isWs = l)
    (h2 : l.reverse.dropWhile isWs = l.reverse) : trimChars l = l := by
  unfold trimChars
  rw [h1, h2, List.reverse_reverse]

theorem trim_idem (l : List Char) : trimChars (trimChars l) = trimChars l := by
  apply trim_keep
  · apply dropWhile_self_of_head
    intro c hc
    unfold trimChars at hc
    rw [List.head?_reverse] at hc
    by_cases hz : (l.dropWhile isWs).reverse.dropWhile isWs = []
    · rw [hz] at hc; simp at hc
    · rw [getLast?_dropWhile hz, List.getLast?_reverse] at hc
      cases hd : l.dropWhile isWs with
      | nil => rw [hd] at hc; simp at hc
      | cons a t =>
        rw [hd] at hc
        simp at hc
        rw [← hc]
        exact head_dropWhile_false hd
  · unfold trimChars
    rw [List.reverse_reverse]
    exact dropWhile_dropWhile _ _

theorem goodPayload_head {s : String} (h : goodPayload s) :
    ∃ c t, s.data = c :: t ∧ isWs c = false := by
  obtain ⟨hne, -, hfront, -⟩ := h
  cases hd : s.data with
  | nil => exact absurd hd hne
  | cons c t =>
    refine ⟨c, t, rfl, ?_⟩
    rw [hd] at hfront
    exact dropWhile_cons_eq_self hfront

theorem goodPayload_last {s : String} (h : goodPayload s) :
    ∃ c t, s.data.reverse = c :: t ∧ isWs c = false := by
  obtain ⟨hne, -, -, hback⟩ := h
  cases hd : s.data.reverse with
  | nil =>
    rw [List.reverse_eq_nil_iff] at hd
    exact absurd hd hne
  | cons c t =>
    refine ⟨c, t, rfl, ?_⟩
    rw [hd] at hback
    exact dropWhile_cons_eq_self hback

/-- A line of the form `c :: t ++ payload` with a non-whitespace head and a
good payload is its own trim. -/
theorem trim_line {c : Char} {t : List Char} {s : String}
    (hc : isWs c = false) (hs : goodPayload s) :
    trimChars (c :: (t ++ s.data)) = c :: (t ++ s.data) := by
  obtain ⟨c', t', hrev, hc'⟩ := goodPayload_last hs
  apply trim_keep
  · exact List.dropWhile_cons_of_neg (by simp [hc])
  · have : (c :: (t ++ s.data)).reverse = c' :: (t' ++ (c :: t).reverse) := by
      rw [List.reverse_cons, ← List.cons_append, List.reverse_append, hrev]
      simp
    rw [this]
    exact List.dropWhile_cons_of_neg (by simp [hc'])

theorem trim_space_payload {s : String} (hs : goodPayload s) :
    trimChars (' ' :: s.data) = s.data := by
  obtain ⟨c, t, hd, hc⟩ := goodPayload_head hs
  obtain ⟨c', t', hrev, hc'⟩ := goodPayload_last hs
  unfold trimChars
  rw [List.dropWhile_cons_of_pos (by decide), hd,
      List.dropWhile_cons_of_neg (by simp [hc]), ← hd, hrev,
      List.dropWhile_cons_of_neg (by simp [hc']), ← hrev, List.reverse_reverse]

theorem splitOnChar_no_sep {sep : Char} :
    ∀ {a : List Char}, sep ∉ a → splitOnChar sep a = [a] := by
  intro a
  induction a with
  | nil => intro _; rfl
  | cons c t ih =>
    intro h
    have hc : ¬(c = sep) := fun he => h (he ▸ List.mem_cons_self c t)
    have ht : sep ∉ t := fun hm => h (List.mem_cons_of_mem c hm)
    simp only [splitOnChar, if_neg hc, ih ht]

theorem splitOnChar_append {sep : Char} :
    ∀ {a : List Char}, sep ∉ a → ∀ (b : List Char),
    splitOnChar sep (a ++ sep :: b) = a :: splitOnChar sep b := by
  intro a
  induction a with
  | nil =>
    intro _ b
    simp [splitOnChar]
  | cons c t ih =>
    intro h b
    have hc : ¬(c = sep) := fun he => h (he ▸ List.mem_cons_self c t)
    have ht : sep ∉ t := fun hm => h (List.mem_cons_of_mem c hm)
    simp only [List.cons_append, splitOnChar, List.append_eq, if_neg hc, ih ht b]

theorem takeWhile_all_append {p : Char → Bool} :
    ∀ {ds : List Char}, (∀ c ∈ ds, p c = true) → ∀ {x : Char} {r : List Char}, p x = false →
    (ds ++ x :: r).takeWhile p = ds ∧ (ds ++ x :: r).dropWhile p = x :: r := by
  intro ds
  induction ds with
  | nil =>
    intro _ x r hx
    constructor
    · exact List.takeWhile_cons_of_neg (by simp [hx])
    · exact List.dropWhile_cons_of_neg (by simp [hx])
  | cons d t ih =>
    intro h x r hx
    have hd : p d = true := h d (List.mem_cons_self d t)
    have ht : ∀ c ∈ t, p c = true := fun c hc => h c (List.mem_cons_of_mem d hc)
    obtain ⟨h1, h2⟩ := ih ht hx
    constructor
    · rw [List.cons_append, List.takeWhile_cons_of_pos hd, h1]
    · rw [List.cons_append, List.dropWhile_cons_of_pos hd, h2]

theorem matchQuestion_qLine {ds : List Char} {q : String}
    (hne : ds ≠ []) (hd : ∀ c ∈ ds, c.isDigit = true) (hq : goodPayload q) :
    matchQuestion (qLine ds q) = some (digitsToNat ds, q.data) := by
  obtain ⟨c, t, hqd, hc⟩ := goodPayload_head hq
  have hdot : ('.' : Char).isDigit = false := by decide
  obtain ⟨htw, hdw⟩ := takeWhile_all_append hd (x := '.') (r := ' ' :: q.data) hdot
  unfold matchQuestion qLine
  rw [htw, hdw]
  simp only [List.isEmpty_eq_true, hne, if_false]
  have hws1 : (' ' :: q.data).dropWhile isWs = q.data := by
    rw [List.dropWhile_cons_of_pos (by decide), hq.2.2.1]
  have hws2 : (' ' :: q.data).takeWhile isWs = [' '] := by
    rw [List.takeWhile_cons_of_pos (by decide), hqd,
        List.takeWhile_cons_of_neg (by simp [hc])]
  rw [hws1, hws2]
  simp [hq.1]

theorem matchQuestion_none_of_head {c : Char} {t : List Char}
    (hc : c.isDigit = false) : matchQuestion (c :: t) = none := by
  unfold matchQuestion
  rw [List.takeWhile_cons_of_neg (by simp [hc])]
  simp

theorem matchOption_optLine {k : Char} {o : String}
    (hk : k = 'A' ∨ k = 'B' ∨ k = 'C' ∨ k = 'D') (ho : goodPayload o) :
    matchOption (optLine k o) = some (⟨[k]⟩, o.data) := by
  obtain ⟨c, t, hod, hc⟩ := goodPayload_head ho
  simp only [matchOption, optLine]
  rw [if_pos ⟨hk, trivial⟩]
  have hws1 : (' ' :: o.data).dropWhile isWs = o.data := by
    rw [List.dropWhile_cons_of_pos (by decide), ho.2.2.1]
  have hws2 : (' ' :: o.data).takeWhile isWs = [' '] := by
    rw [List.takeWhile_cons_of_pos (by decide), hod,
        List.takeWhile_cons_of_neg (by simp [hc])]
  rw [hws1, hws2]
  simp [ho.1]

theorem matchOption_none_of_snd {c1 c2 : Char} {r : List Char}
    (h : ¬(c2 = '.')) : matchOption (c1 :: c2 :: r) = none := by
  simp only [matchOption]
  rw [if_neg (by tauto)]

theorem matchOption_none_of_fst {c1 c2 : Char} {r : List Char}
    (h : ¬(c1 = 'A' ∨ c1 = 'B' ∨ c1 = 'C' ∨ c1 = 'D')) :
    matchOption (c1 :: c2 :: r) = none := by
  simp only [matchOption]
  rw [if_neg (by tauto)]

theorem startsWithChars_same :
    ∀ (p rest : List Char), startsWithChars p (p ++ rest) = true := by
  intro p
  induction p with
  | nil => intro _; rfl
  | cons c t ih =>
    intro rest
    simp only [List.cons_append, startsWithChars, List.append_eq, if_pos rfl, if_true, ih rest]

theorem jamb_no_digit {d : Char} (hd : d.isDigit = true) (rest : List Char) :
    startsWithChars jambTag (d :: rest) = false := by
  have hne : ¬(('J' : Char) = d) := by
    rintro rfl
    exact absurd hd (by decide)
  simp only [jambTag, startsWithChars, if_neg hne]

theorem ws_not_digit {c : Char} (h : isWs c = true) : c.isDigit = false := by
  unfold isWs at h
  simp only [Bool.or_eq_true, decide_eq_true_eq] at h
  rcases h with ((((h | h) | h) | h) | h) | h <;> subst h <;> decide

theorem digit_not_ws {c : Char} (h : c.isDigit = true) : isWs c = false := by
  cases hw : isWs c with
  | false => rfl
  | true => rw [ws_not_digit hw] at h; exact absurd h (by simp)

theorem startsWithChars_ne {p c : Char} {ps cs : List Char} (h : ¬(p = c)) :
    startsWithChars (p :: ps) (c :: cs) = false := by
  simp only [startsWithChars, if_neg h]

theorem trim_qLine {ds : List Char} {q : String} (hne : ds ≠ [])
    (hd : ∀ c ∈ ds, c.isDigit = true) (hq : goodPayload q) :
    trimChars (qLine ds q) = qLine ds q := by
  cases ds with
  | nil => exact absurd rfl hne
  | cons d t =>
    have hdw : isWs d = false := digit_not_ws (hd d (List.mem_cons_self d t))
    have hshape : qLine (d :: t) q = d :: ((t ++ ['.', ' ']) ++ q.data) := by
      simp [qLine]
    rw [hshape]
    exact trim_line hdw hq

theorem trim_optLine {k : Char} {o : String} (hk : isWs k = false)
    (ho : goodPayload o) : trimChars (optLine k o) = optLine k o := by
  have hshape : optLine k o = k :: (['.', ' '] ++ o.data) := by simp [optLine]
  rw [hshape]
  exact trim_line hk ho

theorem trim_ansLine {ans : String} (ha : goodPayload ans) :
    trimChars (ansLine ans) = ansLine ans := by
  have hshape : ansLine ans = 'A' :: (['n', 's', 'w', 'e', 'r', ':', ' '] ++ ans.data) := by
    simp [ansLine, answerTag]
  rw [hshape]
  exact trim_line (by decide) ha

theorem trim_explLine {e : String} (he : goodPayload e) :
    trimChars (explLine e) = explLine e := by
  have hshape : explLine e =
      'E' :: (['x', 'p', 'l', 'a', 'n', 'a', 't', 'i', 'o', 'n', ':', ' '] ++ e.data) := by
    simp [explLine, explanationTag]
  rw [hshape]
  exact trim_line (by decide) he

theorem stepLine_qLine {subject : String} {st : PState} {ds : List Char} {q : String}
    (hne : ds ≠ []) (hd : ∀ c ∈ ds, c.isDigit = true) (hq : goodPayload q)
    (hban : containsSub bannerTag (qLine ds q) = false) :
    stepLine subject st (qLine ds q) =
      { questions := st.questions ++ flushCur st.cur
        cur := some { id := digitsToNat ds, subject := subject, text := q
                      options := [], answer := none, explanation := "", exception := "" }
        collectingExplanation := false, collectingException := false } := by
  have htr := trim_qLine hne hd hq
  have hmq := matchQuestion_qLine hne hd hq
  cases ds with
  | nil => exact absurd rfl hne
  | cons d t =>
    have hj : startsWithChars jambTag (qLine (d :: t) q) = false := by
      have : qLine (d :: t) q = d :: (t ++ '.' :: ' ' :: q.data) := by simp [qLine]
      rw [this]
      exact jamb_no_digit (hd d (List.mem_cons_self d t)) _
    have hemp : (qLine (d :: t) q).isEmpty = false := by
      simp [qLine]
    simp only [stepLine, htr, hemp, hj, hban, Bool.or_false, Bool.false_or, if_false,
               Bool.false_eq_true, hmq]

theorem stepLine_optLine {subject : String} {st : PState} {k : Char} {o : String}
    {q : Question} (hk : k = 'A' ∨ k = 'B' ∨ k = 'C' ∨ k = 'D')
    (ho : goodPayload o) (hban : containsSub bannerTag (optLine k o) = false)
    (hcur : st.cur = some q) :
    stepLine subject st (optLine k o) =
      { st with cur := some { q with options := setOpt q.options ⟨[k]⟩ o }
                collectingExplanation := false, collectingException := false } := by
  have hkw : isWs k = false := by rcases hk with rfl | rfl | rfl | rfl <;> decide
  have hkd : k.isDigit = false := by rcases hk with rfl | rfl | rfl | rfl <;> decide
  have htr := trim_optLine hkw ho
  have hmq : matchQuestion (optLine k o) = none := matchQuestion_none_of_head hkd
  have hmo := matchOption_optLine hk ho
  have hj : startsWithChars jambTag (optLine k o) = false := by
    apply startsWithChars_ne
    rcases hk with rfl | rfl | rfl | rfl <;> decide
  have hemp : (optLine k o).isEmpty = false := by simp [optLine]
  simp only [stepLine, htr, hemp, hj, hban, Bool.or_false, Bool.false_or, if_false,
             Bool.false_eq_true, hmq, hmo, hcur]

theorem stepLine_ansLine {subject : String} {st : PState} {ans : String}
    {q : Question} (ha : goodPayload ans)
    (hban : containsSub bannerTag (ansLine ans) = false)
    (hcur : st.cur = some q) :
    stepLine subject st (ansLine ans) =
      { st with cur := some { q with answer := some ans }
                collectingExplanation := false, collectingException := false } := by
  have htr := trim_ansLine ha
  have hmq : matchQuestion (ansLine ans) = none := by
    have : ansLine ans = 'A' :: ('n' :: 's' :: 'w' :: 'e' :: 'r' :: ':' :: ' ' :: ans.data) := by
      simp [ansLine, answerTag]
    rw [this]
    exact matchQuestion_none_of_head (by decide)
  have hmo : matchOption (ansLine ans) = none := by
    have : ansLine ans = 'A' :: 'n' :: ('s' :: 'w' :: 'e' :: 'r' :: ':' :: ' ' :: ans.data) := by
      simp [ansLine, answerTag]
    rw [this]
    exact matchOption_none_of_snd (by decide)
  have hj : startsWithChars jambTag (ansLine ans) = false := by
    have : ansLine ans = 'A' :: ('n' :: 's' :: 'w' :: 'e' :: 'r' :: ':' :: ' ' :: ans.data) := by
      simp [ansLine, answerTag]
    rw [this]
    exact startsWithChars_ne (by decide)
  have hsw : startsWithChars answerTag (ansLine ans) = true := by
    unfold ansLine
    exact startsWithChars_same _ _
  have hemp : (ansLine ans).isEmpty = false := by simp [ansLine, answerTag]
  have hdrop : (ansLine ans).drop 7 = ' ' :: ans.data := by
    simp [ansLine, answerTag]
  simp only [stepLine, htr, hemp, hj, hban, Bool.or_false, Bool.false_or, if_false,
             Bool.false_eq_true, hmq, hmo, hsw, if_true, hcur, hdrop,
             trim_space_payload ha]

theorem stepLine_explLine {subject : String} {st : PState} {e : String}
    {q : Question} (he : goodPayload e)
    (hban : containsSub bannerTag (explLine e) = false)
    (hcur : st.cur = some q) :
    stepLine subject st (explLine e) =
      { st with cur := some { q with explanation := e }
                collectingExplanation := true, collectingException := false } := by
  have htr := trim_explLine he
  have hmq : matchQuestion (explLine e) = none := by
    have hsh : explLine e =
        'E' :: ('x' :: 'p' :: 'l' :: 'a' :: 'n' :: 'a' :: 't' :: 'i' :: 'o' :: 'n' :: ':' :: ' ' :: e.data) := by
      simp [explLine, explanationTag]
    rw [hsh]
    exact matchQuestion_none_of_head (by decide)
  have hmo : matchOption (explLine e) = none := by
    have hsh : explLine e =
        'E' :: 'x' :: ('p' :: 'l' :: 'a' :: 'n' :: 'a' :: 't' :: 'i' :: 'o' :: 'n' :: ':' :: ' ' :: e.data) := by
      simp [explLine, explanationTag]
    rw [hsh]
    exact matchOption_none_of_fst (by decide)
  have hj : startsWithChars jambTag (explLine e) = false := by
    have hsh : explLine e =
        'E' :: ('x' :: 'p' :: 'l' :: 'a' :: 'n' :: 'a' :: 't' :: 'i' :: 'o' :: 'n' :: ':' :: ' ' :: e.data) := by
      simp [explLine, explanationTag]
    rw [hsh]
    exact startsWithChars_ne (by decide)
  have hsa : startsWithChars answerTag (explLine e) = false := by
    have hsh : explLine e =
        'E' :: ('x' :: 'p' :: 'l' :: 'a' :: 'n' :: 'a' :: 't' :: 'i' :: 'o' :: 'n' :: ':' :: ' ' :: e.data) := by
      simp [explLine, explanationTag]
    rw [hsh]
    exact startsWithChars_ne (by decide)
  have hse : startsWithChars explanationTag (explLine e) = true := by
    unfold explLine
    exact startsWithChars_same _ _
  have hemp : (explLine e).isEmpty = false := by simp [explLine, explanationTag]
  have hdrop : (explLine e).drop 12 = ' ' :: e.data := by
    simp [explLine, explanationTag]
  simp only [stepLine, htr, hemp, hj, hban, Bool.or_false, Bool.false_or, if_false,
             Bool.false_eq_true, hmq, hmo, hsa, hse, if_true, hcur, hdrop,
             trim_space_payload he]

theorem stepLine_inert {subject : String} {qs : List Question} {l : List Char}
    (h : matchQuestion (trimChars l) = none) :
    stepLine subject ⟨qs, none, false, false⟩ l = ⟨qs, none, false, false⟩ := by
  simp only [stepLine, h]
  by_cases hg : ((trimChars l).isEmpty || startsWithChars jambTag (trimChars l) ||
      containsSub bannerTag (trimChars l)) = true
  · simp [hg]
  · simp only [hg, if_false, Bool.false_eq_true]
    cases hmo : matchOption (trimChars l) with
    | some kv => simp [hmo]
    | none =>
      simp only [hmo]
      by_cases h1 : startsWithChars answerTag (trimChars l) = true
      · simp [h1]
      · simp only [h1, if_false, Bool.false_eq_true]
        by_cases h2 : startsWithChars explanationTag (trimChars l) = true
        · simp [h2]
        · simp only [h2, if_false, Bool.false_eq_true]
          by_cases h3 : startsWithChars exceptionTag (trimChars l) = true
          · simp [h3]
          · simp [h3]

theorem nl_not_mem_qLine {ds : List Char} {q : String}
    (hd : ∀ c ∈ ds, c.isDigit = true) (hq : goodPayload q) : '\n' ∉ qLine ds q := by
  intro hmem
  simp only [qLine, List.mem_append, List.mem_cons] at hmem
  rcases hmem with h | h | h | h
  · exact absurd (hd _ h) (by decide)
  · exact absurd h (by decide)
  · exact absurd h (by decide)
  · exact hq.2.1 h

theorem nl_not_mem_optLine {k : Char} {o : String} (hk : ¬('\n' = k))
    (ho : goodPayload o) : '\n' ∉ optLine k o := by
  intro hmem
  simp only [optLine, List.mem_cons] at hmem
  rcases hmem with h | h | h | h
  · exact hk h
  · exact absurd h (by decide)
  · exact absurd h (by decide)
  · exact ho.2.1 h

theorem nl_not_mem_ansLine {ans : String} (ha : goodPayload ans) :
    '\n' ∉ ansLine ans := by
  intro hmem
  simp only [ansLine, answerTag, List.mem_append, List.mem_cons] at hmem
  rcases hmem with (h | h | h | h | h | h | h | h) | h | h
  all_goals first
    | exact absurd h (by decide)
    | exact ha.2.1 h

theorem nl_not_mem_explLine {e : String} (he : goodPayload e) :
    '\n' ∉ explLine e := by
  intro hmem
  simp only [explLine, explanationTag, List.mem_append, List.mem_cons] at hmem
  rcases hmem with (h | h | h | h | h | h | h | h | h | h | h | h | h) | h | h
  all_goals first
    | exact absurd h (by decide)
    | exact he.2.1 h

/-- C4: for every well-formed document consisting of exactly one numbered
question line, four option lines A–D, one `Answer:` line and one single-line
`Explanation:` line, `parse` returns exactly one record whose `id`, `text`,
`options`, `answer` and `explanation` equal the corresponding source values
verbatim after trimming (well-formedness: each interpolated payload is
non-empty, single-line and trimmed, and no line carries the skipped banner
marker). -/
theorem c4_parser_roundtrip (subject : String) (ds : List Char)
    (qtext oa ob oc od ans expl : String)
    (hds : ds ≠ []) (hdig : ∀ c ∈ ds, c.isDigit = true)
    (hq : goodPayload qtext) (ha : goodPayload oa) (hb : goodPayload ob)
    (hc : goodPayload oc) (hd : goodPayload od) (hans : goodPayload ans)
    (hexpl : goodPayload expl)
    (hb1 : containsSub bannerTag (qLine ds qtext) = false)
    (hb2 : containsSub bannerTag (optLine 'A' oa) = false)
    (hb3 : containsSub bannerTag (optLine 'B' ob) = false)
    (hb4 : containsSub bannerTag (optLine 'C' oc) = false)
    (hb5 : containsSub bannerTag (optLine 'D' od) = false)
    (hb6 : containsSub bannerTag (ansLine ans) = false)
    (hb7 : containsSub bannerTag (explLine expl) = false) :
    parse (singleQuestionDoc ds qtext oa ob oc od ans expl) subject =
      [{ id := digitsToNat ds, subject := subject, text := qtext
         options := [("A", oa), ("B", ob), ("C", oc), ("D", od)]
         answer := some ans, explanation := expl, exception := "" }] := by
  have hsplit : splitLines (singleQuestionDoc ds qtext oa ob oc od ans expl).data =
      [qLine ds qtext, optLine 'A' oa, optLine 'B' ob, optLine 'C' oc,
       optLine 'D' od, ansLine ans, explLine expl] := by
    show splitOnChar '\n' _ = _
    rw [show (singleQuestionDoc ds qtext oa ob oc od ans expl).data =
        qLine ds qtext ++ '\n' ::
        (optLine 'A' oa ++ '\n' ::
         (optLine 'B' ob ++ '\n' ::
          (optLine 'C' oc ++ '\n' ::
           (optLine 'D' od ++ '\n' ::
            (ansLine ans ++ '\n' :: explLine expl))))) from rfl]
    rw [splitOnChar_append (nl_not_mem_qLine hdig hq),
        splitOnChar_append (nl_not_mem_optLine (by decide) ha),
        splitOnChar_append (nl_not_mem_optLine (by decide) hb),
        splitOnChar_append (nl_not_mem_optLine (by decide) hc),
        splitOnChar_append (nl_not_mem_optLine (by decide) hd),
        splitOnChar_append (nl_not_mem_ansLine hans),
        splitOnChar_no_sep (nl_not_mem_explLine hexpl)]
  unfold parse
  rw [hsplit]
  simp only [List.foldl_cons, List.foldl_nil]
  rw [show (initState : PState) = ⟨[], none, false, false⟩ from rfl]
  rw [stepLine_qLine hds hdig hq hb1]
  rw [stepLine_optLine (Or.inl rfl) ha hb2 rfl]
  rw [stepLine_optLine (Or.inr (Or.inl rfl)) hb hb3 rfl]
  rw [stepLine_optLine (Or.inr (Or.inr (Or.inl rfl))) hc hb4 rfl]
  rw [stepLine_optLine (Or.inr (Or.inr (Or.inr rfl))) hd hb5 rfl]
  rw [stepLine_ansLine hans hb6 rfl]
  rw [stepLine_explLine hexpl hb7 rfl]
  simp only [flushState, flushCur, List.nil_append]
  simp +decide [setOpt]

/-- C5: `parse` is total (the embedding returns a list for every input), and
a line that does not open a numbered question — in particular an option line
`A. …` appearing before any numbered question line — is dropped without a
crash and without any spurious record: parsing `l ++ "\n" ++ rest` gives
exactly the parse of `rest`. -/
theorem c5_orphan_line_dropped (l rest subject : String)
    (hnl : '\n' ∉ l.data)
    (hmq : matchQuestion (trimChars l.data) = none) :
    parse (l ++ "\n" ++ rest) subject = parse rest subject := by
  unfold parse
  have hdata : (l ++ "\n" ++ rest).data = l.data ++ '\n' :: rest.data := by
    rw [String.data_append, String.data_append, List.append_assoc]
    rfl
  rw [hdata]
  show flushState ((splitOnChar '\n' _).foldl _ _) = _
  rw [splitOnChar_append hnl]
  simp only [List.foldl_cons]
  rw [show (initState : PState) = ⟨[], none, false, false⟩ from rfl,
      stepLine_inert hmq]
  rfl

theorem c5_witness :
    ('\n' ∉ ("A. orphan" : String).data) ∧
    matchQuestion (trimChars ("A. orphan" : String).data) = none ∧
    parse ("A. orphan" ++ "\n" ++ "1. Q?\nB. opt") "S" = parse "1. Q?\nB. opt" "S" ∧
    (parse "1. Q?\nB. opt" "S").all
      (fun q => q.options.all (fun kv => kv.2 ≠ "orphan")) = true :=
  ⟨by decide, by decide,
   c5_orphan_line_dropped "A. orphan" "1. Q?\nB. opt" "S" (by decide) (by decide),
   by decide⟩

theorem matchQuestion_rest_ne {l : List Char} {n : Nat} {r : List Char}
    (h : matchQuestion l = some (n, r)) : r ≠ [] := by
  unfold matchQuestion at h
  split at h
  · exact absurd h (by simp)
  · split at h
    · split at h
      · exact absurd h (by simp)
      · rename_i hg
        simp only [Bool.or_eq_true, not_or, List.isEmpty_eq_true] at hg
        injection h with h'
        injection h' with h1 h2
        rw [← h2]
        intro hz
        exact hg.2 hz
    · exact absurd h (by simp)

theorem matchOption_props {l : List Char} {k : String} {r : List Char}
    (h : matchOption l = some (k, r)) :
    (k = "A" ∨ k = "B" ∨ k = "C" ∨ k = "D") ∧ r ≠ [] := by
  unfold matchOption at h
  split at h
  · rename_i c1 c2 r2
    split at h
    · rename_i hcond
      split at h
      · exact absurd h (by simp)
      · rename_i hg
        simp only [Bool.or_eq_true, not_or, List.isEmpty_eq_true] at hg
        rw [Option.some.injEq, Prod.mk.injEq] at h
        obtain ⟨h1, h2⟩ := h
        constructor
        · rw [← h1]
          rcases hcond.1 with rfl | rfl | rfl | rfl
          · exact Or.inl rfl
          · exact Or.inr (Or.inl rfl)
          · exact Or.inr (Or.inr (Or.inl rfl))
          · exact Or.inr (Or.inr (Or.inr rfl))
        · rw [← h2]
          intro hz
          exact hg.2 hz
    · exact absurd h (by simp)
  · exact absurd h (by simp)

theorem setOpt_all {P : String × String → Bool} :
    ∀ {m : List (String × String)} {k v}, m.all P = true → P (k, v) = true →
    (setOpt m k v).all P = true := by
  intro m
  induction m with
  | nil =>
    intro k v _ hp
    simp [setOpt, hp]
  | cons kv rest ih =>
    intro k v hall hp
    obtain ⟨k', v'⟩ := kv
    simp only [List.all_cons, Bool.and_eq_true] at hall
    by_cases he : k' = k
    · simp only [setOpt, if_pos he, List.all_cons, Bool.and_eq_true]
      exact ⟨hp, hall.2⟩
    · simp only [setOpt, if_neg he, List.all_cons, Bool.and_eq_true]
      exact ⟨hall.1, ih hall.2 hp⟩

theorem mem_flush_questions {st : PState} {q : Question}
    (h : q ∈ st.questions) : q ∈ flushState st :=
  List.mem_append_left _ h

theorem cur_mem_flush {st : PState} {q : Question} (h : st.cur = some q) :
    q ∈ flushState st := by
  simp [flushState, flushCur, h]

theorem mk_ne_empty {r : List Char} (h : r ≠ []) : (⟨r⟩ : String) ≠ "" := by
  intro he
  exact h (congrArg String.data he)

/-- Exhaustive characterization of one parser step: either the line is inert,
or it opens a question, sets an option, sets the answer, starts or continues
an explanation or exception. -/
theorem stepLine_cases (subject : String) (st : PState) (l : List Char) :
    stepLine subject st l = st ∨
    (∃ n rest, matchQuestion (trimChars l) = some (n, rest) ∧
      stepLine subject st l =
        { questions := st.questions ++ flushCur st.cur
          cur := some { id := n, subject := subject, text := ⟨rest⟩, options := []
                        answer := none, explanation := "", exception := "" }
          collectingExplanation := false, collectingException := false }) ∨
    (∃ qc k rest, st.cur = some qc ∧ matchOption (trimChars l) = some (k, rest) ∧
      stepLine subject st l =
        { st with cur := some { qc with options := setOpt qc.options k ⟨rest⟩ }
                  collectingExplanation := false, collectingException := false }) ∨
    (∃ qc, st.cur = some qc ∧
      stepLine subject st l =
        { st with cur := some { qc with answer := some ⟨trimChars ((trimChars l).drop 7)⟩ }
                  collectingExplanation := false, collectingException := false }) ∨
    (∃ qc, st.cur = some qc ∧
      stepLine subject st l =
        { st with cur := some { qc with explanation := ⟨trimChars ((trimChars l).drop 12)⟩ }
                  collectingExplanation := true, collectingException := false }) ∨
    (∃ qc, st.cur = some qc ∧
      stepLine subject st l =
        { st with cur := some { qc with exception := ⟨trimChars ((trimChars l).drop 10)⟩ }
                  collectingExplanation := false, collectingException := true }) ∨
    (∃ qc, st.cur = some qc ∧
      stepLine subject st l =
        { st with cur := some { qc with explanation := qc.explanation ++ ⟨' ' :: trimChars l⟩ } }) ∨
    (∃ qc, st.cur = some qc ∧
      stepLine subject st l =
        { st with cur := some { qc with exception := qc.exception ++ ⟨' ' :: trimChars l⟩ } }) := by
  by_cases hg : ((trimChars l).isEmpty || startsWithChars jambTag (trimChars l) ||
      containsSub bannerTag (trimChars l)) = true
  · left
    simp [stepLine, hg]
  · cases hmq : matchQuestion (trimChars l) with
    | some p =>
      obtain ⟨n, rest⟩ := p
      refine Or.inr (Or.inl ⟨n, rest, rfl, ?_⟩)
      simp [stepLine, hg, hmq]
    | none =>
      cases hmo : matchOption (trimChars l) with
      | some p =>
        obtain ⟨k, rest⟩ := p
        cases hcur : st.cur with
        | none =>
          left
          simp [stepLine, hg, hmq, hmo, hcur]
        | some qc =>
          refine Or.inr (Or.inr (Or.inl ⟨qc, k, rest, rfl, rfl, ?_⟩))
          simp [stepLine, hg, hmq, hmo, hcur]
      | none =>
        by_cases h1 : startsWithChars answerTag (trimChars l) = true
        · cases hcur : st.cur with
          | none => left; simp [stepLine, hg, hmq, hmo, hcur, h1]
          | some qc =>
            refine Or.inr (Or.inr (Or.inr (Or.inl ⟨qc, rfl, ?_⟩)))
            simp [stepLine, hg, hmq, hmo, hcur, h1]
        · by_cases h2 : startsWithChars explanationTag (trimChars l) = true
          · cases hcur : st.cur with
            | none => left; simp [stepLine, hg, hmq, hmo, hcur, h1, h2]
            | some qc =>
              refine Or.inr (Or.inr (Or.inr (Or.inr (Or.inl ⟨qc, rfl, ?_⟩))))
              simp [stepLine, hg, hmq, hmo, hcur, h1, h2]
          · by_cases h3 : startsWithChars exceptionTag (trimChars l) = true
            · cases hcur : st.cur with
              | none => left; simp [stepLine, hg, hmq, hmo, hcur, h1, h2, h3]
              | some qc =>
                refine Or.inr (Or.inr (Or.inr (Or.inr (Or.inr (Or.inl ⟨qc, rfl, ?_⟩)))))
                simp [stepLine, hg, hmq, hmo, hcur, h1, h2, h3]
            · by_cases h4 : st.collectingExplanation = true
              · cases hcur : st.cur with
                | none => left; simp [stepLine, hg, hmq, hmo, hcur, h1, h2, h3, h4]
                | some qc =>
                  refine Or.inr (Or.inr (Or.inr (Or.inr (Or.inr (Or.inr (Or.inl ⟨qc, rfl, ?_⟩))))))
                  simp [stepLine, hg, hmq, hmo, hcur, h1, h2, h3, h4]
              · by_cases h5 : st.collectingException = true
                · cases hcur : st.cur with
                  | none => left; simp [stepLine, hg, hmq, hmo, hcur, h1, h2, h3, h4, h5]
                  | some qc =>
                    refine Or.inr (Or.inr (Or.inr (Or.inr (Or.inr (Or.inr (Or.inr ⟨qc, rfl, ?_⟩))))))
                    simp [stepLine, hg, hmq, hmo, hcur, h1, h2, h3, h4, h5]
                · left
                  simp [stepLine, hg, hmq, hmo, h1, h2, h3, h4, h5]

theorem flushState_set_cur {st : PState} {qc' : Question} {b1 b2 : Bool} :
    flushState { st with cur := some qc', collectingExplanation := b1
                         collectingException := b2 } = st.questions ++ [qc'] := by
  simp [flushState, flushCur]

theorem stepLine_shapeOk {subject : String} {st : PState} {l : List Char}
    (h : ∀ q ∈ flushState st, recordShapeOk q = true) :
    ∀ q ∈ flushState (stepLine subject st l), recordShapeOk q = true := by
  intro q hq
  rcases stepLine_cases subject st l with heq |
    ⟨n, rest, hmq, heq⟩ | ⟨qc, k, rest, hcur, hmo, heq⟩ | ⟨qc, hcur, heq⟩ |
    ⟨qc, hcur, heq⟩ | ⟨qc, hcur, heq⟩ | ⟨qc, hcur, heq⟩ | ⟨qc, hcur, heq⟩
  · exact h q (heq ▸ hq)
  · rw [heq] at hq
    simp only [flushState, flushCur, List.mem_append, List.mem_singleton] at hq
    rcases hq with hq | rfl
    · exact h q (by simpa [flushState] using hq)
    · simp [recordShapeOk, mk_ne_empty (matchQuestion_rest_ne hmq)]
  · rw [heq, flushState_set_cur] at hq
    rcases List.mem_append.1 hq with hq | hq
    · exact h q (mem_flush_questions hq)
    · rw [List.mem_singleton.1 hq]
      have hqc := h qc (cur_mem_flush hcur)
      obtain ⟨hkey, hrne⟩ := matchOption_props hmo
      simp only [recordShapeOk, Bool.and_eq_true] at hqc ⊢
      refine ⟨⟨hqc.1.1, ?_⟩, hqc.2⟩
      apply setOpt_all hqc.1.2
      simp only [Bool.and_eq_true, decide_eq_true_eq, List.mem_cons,
                 List.mem_singleton]
      exact ⟨by simpa using hkey, mk_ne_empty hrne⟩
  · rw [heq, flushState_set_cur] at hq
    rcases List.mem_append.1 hq with hq | hq
    · exact h q (mem_flush_questions hq)
    · rw [List.mem_singleton.1 hq]
      have hqc := h qc (cur_mem_flush hcur)
      simp only [recordShapeOk, Bool.and_eq_true] at hqc ⊢
      refine ⟨hqc.1, ?_⟩
      simp only [decide_eq_true_eq]
      exact trim_idem _
  · rw [heq, flushState_set_cur] at hq
    rcases List.mem_append.1 hq with hq | hq
    · exact h q (mem_flush_questions hq)
    · rw [List.mem_singleton.1 hq]
      have hqc := h qc (cur_mem_flush hcur)
      simpa only [recordShapeOk, Bool.and_eq_true] using hqc
  · rw [heq, flushState_set_cur] at hq
    rcases List.mem_append.1 hq with hq | hq
    · exact h q (mem_flush_questions hq)
    · rw [List.mem_singleton.1 hq]
      have hqc := h qc (cur_mem_flush hcur)
      simpa only [recordShapeOk, Bool.and_eq_true] using hqc
  · rw [heq] at hq
    have : flushState { st with cur := some { qc with explanation := qc.explanation ++ ⟨' ' :: trimChars l⟩ } } =
        st.questions ++ [{ qc with explanation := qc.explanation ++ ⟨' ' :: trimChars l⟩ }] := by
      simp [flushState, flushCur]
    rw [this] at hq
    rcases List.mem_append.1 hq with hq | hq
    · exact h q (mem_flush_questions hq)
    · rw [List.mem_singleton.1 hq]
      have hqc := h qc (cur_mem_flush hcur)
      simpa only [recordShapeOk, Bool.and_eq_true] using hqc
  · rw [heq] at hq
    have : flushState { st with cur := some { qc with exception := qc.exception ++ ⟨' ' :: trimChars l⟩ } } =
        st.questions ++ [{ qc with exception := qc.exception ++ ⟨' ' :: trimChars l⟩ }] := by
      simp [flushState, flushCur]
    rw [this] at hq
    rcases List.mem_append.1 hq with hq | hq
    · exact h q (mem_flush_questions hq)
    · rw [List.mem_singleton.1 hq]
      have hqc := h qc (cur_mem_flush hcur)
      simpa only [recordShapeOk, Bool.and_eq_true] using hqc

theorem lineGivesId_mono {ls0 ls1 : List (List Char)} {q : Question}
    (h : lineGivesId ls0 q = true) : lineGivesId (ls0 ++ ls1) q = true := by
  simp only [lineGivesId, List.any_eq_true] at h ⊢
  obtain ⟨l, hl, hp⟩ := h
  exact ⟨l, List.mem_append_left _ hl, hp⟩

theorem lineGivesId_update {ls : List (List Char)} {q q' : Question}
    (hid : q'.id = q.id) (htext : q'.text = q.text)
    (h : lineGivesId ls q = true) : lineGivesId ls q' = true := by
  simpa only [lineGivesId, hid, htext] using h

theorem stepLine_prov {subject : String} {st : PState} {l : List Char}
    {ls0 : List (List Char)}
    (h : ∀ q ∈ flushState st, lineGivesId ls0 q = true) :
    ∀ q ∈ flushState (stepLine subject st l), lineGivesId (ls0 ++ [l]) q = true := by
  intro q hq
  rcases stepLine_cases subject st l with heq |
    ⟨n, rest, hmq, heq⟩ | ⟨qc, k, rest, hcur, hmo, heq⟩ | ⟨qc, hcur, heq⟩ |
    ⟨qc, hcur, heq⟩ | ⟨qc, hcur, heq⟩ | ⟨qc, hcur, heq⟩ | ⟨qc, hcur, heq⟩
  · exact lineGivesId_mono (h q (heq ▸ hq))
  · rw [heq] at hq
    simp only [flushState, flushCur, List.mem_append, List.mem_singleton] at hq
    rcases hq with hq | rfl
    · exact lineGivesId_mono (h q (by simpa [flushState] using hq))
    · simp only [lineGivesId, List.any_eq_true]
      exact ⟨l, List.mem_append_right _ (List.mem_singleton_self l),
        by simpa using hmq⟩
  all_goals
    rw [heq, flushState_set_cur] at hq
  all_goals
    rcases List.mem_append.1 hq with hq | hq
    · exact lineGivesId_mono (h q (mem_flush_questions hq))
    · rw [List.mem_singleton.1 hq]
      exact lineGivesId_update rfl rfl (lineGivesId_mono (h qc (cur_mem_flush hcur)))

theorem foldl_shapeOk {subject : String} :
    ∀ (ls : List (List Char)) (st : PState),
    (∀ q ∈ flushState st, recordShapeOk q = true) →
    ∀ q ∈ flushState (ls.foldl (stepLine subject) st), recordShapeOk q = true := by
  intro ls
  induction ls with
  | nil => intro st h; simpa using h
  | cons l tail ih =>
    intro st h
    simp only [List.foldl_cons]
    exact ih _ (stepLine_shapeOk h)

theorem foldl_prov (subject : String) :
    ∀ (ls : List (List Char)) (st : PState) (ls0 : List (List Char)),
    (∀ q ∈ flushState st, lineGivesId ls0 q = true) →
    ∀ q ∈ flushState (ls.foldl (stepLine subject) st),
      lineGivesId (ls0 ++ ls) q = true := by
  intro ls
  induction ls with
  | nil => intro st ls0 h; simpa using h
  | cons l tail ih =>
    intro st ls0 h
    simp only [List.foldl_cons]
    have hstep := ih (stepLine subject st l) (ls0 ++ [l]) (stepLine_prov h)
    simpa [List.append_assoc] using hstep

/-- C10: every record returned by `parse` has non-empty `text`, option keys
among `A..D` with non-empty stored values, `String`-typed `explanation` and
`exception` (by construction of the embedding), and an `answer` that is
`none` or a trimmed string. -/
theorem c10_record_shape (text subject : String) :
    ∀ q ∈ parse text subject, recordShapeOk q = true := by
  unfold parse
  exact foldl_shapeOk _ _ (by intro q hq; simp [flushState, initState, flushCur] at hq)

theorem c10_witness :
    ({ id := 1, subject := "Physics", text := "Q?"
       options := [("A", "w"), ("B", "x"), ("C", "y"), ("D", "z")]
       answer := some "A", explanation := "", exception := "" } : Question)
        ∈ parse bodyOneQ "Physics" ∧
    recordShapeOk
      { id := 1, subject := "Physics", text := "Q?"
        options := [("A", "w"), ("B", "x"), ("C", "y"), ("D", "z")]
        answer := some "A", explanation := "", exception := "" } = true :=
  ⟨by decide, c10_record_shape bodyOneQ "Physics" _ (by decide)⟩

/-- C9 (amended): every record returned by `parse` takes its `id` verbatim
from a numbered line of the document that opened it (the parser never
reassigns ids); uniqueness within a document is not enforced and holds only
when the source numbering is duplicate-free. -/
theorem c9_id_provenance (text subject : String) :
    ∀ q ∈ parse text subject, lineGivesId (splitLines text.data) q = true := by
  unfold parse
  have hfold := foldl_prov subject (splitLines text.data) initState []
    (by intro q hq; simp [flushState, initState, flushCur] at hq)
  simpa using hfold

theorem c9_witness :
    ({ id := 1, subject := "Physics", text := "Q?"
       options := [("A", "w"), ("B", "x"), ("C", "y"), ("D", "z")]
       answer := some "A", explanation := "", exception := "" } : Question)
        ∈ parse bodyOneQ "Physics" ∧
    lineGivesId (splitLines bodyOneQ.data)
      { id := 1, subject := "Physics", text := "Q?"
        options := [("A", "w"), ("B", "x"), ("C", "y"), ("D", "z")]
        answer := some "A", explanation := "", exception := "" } = true :=
  ⟨by decide, c9_id_provenance bodyOneQ "Physics" _ (by decide)⟩

/-- C9 (counterexample): a document whose numbering repeats `1` parses to two
records with the same id — the parser does not make ids unique within a
document. -/
theorem c9_counterexample :
    (parse dupIdDoc "S").map Question.id = [1, 1] ∧
    ¬ ((parse dupIdDoc "S").map Question.id).Nodup := by
  constructor
  · decide
  · decide

/-- C3: the strict gate (spec-modelled; the data-validation step used ahead
of the resolver chain lives outside `src/`) rejects the record
`{text:"Q", options:{A:"x",B:"y"}, answer:"A"}`, while the loose validator
embedded from `QuestionParser.validate` accepts it (contributes no error);
a complete four-option record passes both gates. -/
theorem c3_validator_gate :
    strictValidate recC3 = false ∧ validateErrors [recC3] = [] ∧
    strictValidate recComplete = true ∧ validateErrors [recComplete] = [] := by
  refine ⟨by decide, by decide, by decide, by decide⟩

/-- C7 (counterexample): a raw record carrying both `optionA : ""` and
`options.A = "y"` normalizes to `options.A = "y"`, not to the flat field's
value `""` — JS `||` lets an empty flat field lose the tie. -/
theorem c7_counterexample :
    rawC7.optionA = some "" ∧ nestedOpt rawC7.options "A" = some "y" ∧
    (normalizeQuestions [rawC7] none).map (fun r => lookupS r.options "A") =
      [some "y"] ∧ ("y" : String) ≠ "" := by
  refine ⟨rfl, by decide, by decide, by decide⟩

/-- C7 (amended): the flat field wins the tie exactly when it is non-empty
(JS truthiness); an empty or absent flat field falls through to the nested
entry. -/
theorem c7_flat_wins_nonempty (hint : Option String) (q : RawNQ) (x : String)
    (hx : x ≠ "") :
    (q.optionA = some x → lookupS (normalizeOne hint q).options "A" = some x) ∧
    (q.optionB = some x → lookupS (normalizeOne hint q).options "B" = some x) ∧
    (q.optionC = some x → lookupS (normalizeOne hint q).options "C" = some x) ∧
    (q.optionD = some x → lookupS (normalizeOne hint q).options "D" = some x) := by
  refine ⟨?_, ?_, ?_, ?_⟩ <;> intro h <;>
    simp +decide [normalizeOne, lookupS, pickOption, jsOrS, h, hx]

theorem c7_witness :
    (("x" : String) ≠ "") ∧
    lookupS (normalizeOne (some "S")
      { id := 1, subject := none, text := "T", optionA := some "x"
        optionB := none, optionC := none, optionD := none
        options := some [("A", "y")], answer := some "A"
        explanation := none, exception := none }).options "A" = some "x" :=
  ⟨by decide,
   (c7_flat_wins_nonempty (some "S")
     { id := 1, subject := none, text := "T", optionA := some "x"
       optionB := none, optionC := none, optionD := none
       options := some [("A", "y")], answer := some "A"
       explanation := none, exception := none } "x" (by decide)).1 rfl⟩

/-- C8 (counterexample): with no explicit subject field and no hint but
ambient page metadata `"Physics"` available, the spec's four-step order
yields `"Physics"`, while `normalizeQuestions` yields `"General"` — the
normalizer never consults ambient page metadata. -/
theorem c8_counterexample :
    specSubjectOrder none none (some "Physics") = "Physics" ∧
    rawC8.subject = none ∧
    (normalizeQuestions [rawC8] none).map Question.subject = ["General"] ∧
    ("Physics" : String) ≠ "General" := by
  refine ⟨rfl, rfl, by decide, by decide⟩

/-- C8 (amended): `normalizeQuestions` resolves `subject` by exactly this
three-step order — non-empty explicit field on the raw record, else
non-empty `subjectHint` argument, else the literal `"General"`; ambient
page-level metadata takes no part (it is consulted only by
`convertEmbeddedData`, whose fallback is `"Practice"`). -/
theorem c8_subject_resolution (hint : Option String) (q : RawNQ) :
    (∀ s, q.subject = some s → s ≠ "" → (normalizeOne hint q).subject = s) ∧
    (∀ h, (q.subject = none ∨ q.subject = some "") → hint = some h → h ≠ "" →
      (normalizeOne hint q).subject = h) ∧
    ((q.subject = none ∨ q.subject = some "") → (hint = none ∨ hint = some "") →
      (normalizeOne hint q).subject = "General") := by
  refine ⟨?_, ?_, ?_⟩
  · intro s hs hne
    simp [normalizeOne, jsOrS, hs, hne]
  · intro h hsub hh hne
    rcases hsub with hsub | hsub <;> simp [normalizeOne, jsOrS, hsub, hh, hne]
  · intro hsub hh
    rcases hsub with hsub | hsub <;> rcases hh with hh | hh <;>
      simp [normalizeOne, jsOrS, hsub, hh]

theorem c8_witness :
    (normalizeOne (some "Chemistry")
      { id := 2, subject := some "Physics", text := "T", optionA := none
        optionB := none, optionC := none, optionD := none, options := none
        answer := none, explanation := none, exception := none }).subject =
      "Physics" ∧
    (normalizeOne (some "Chemistry")
      { id := 3, subject := none, text := "T", optionA := none
        optionB := none, optionC := none, optionD := none, options := none
        answer := none, explanation := none, exception := none }).subject =
      "Chemistry" ∧
    (normalizeOne none
      { id := 4, subject := none, text := "T", optionA := none
        optionB := none, optionC := none, optionD := none, options := none
        answer := none, explanation := none, exception := none }).subject =
      "General" :=
  ⟨(c8_subject_resolution (some "Chemistry") _).1 "Physics" rfl (by decide),
   (c8_subject_resolution (some "Chemistry") _).2.1 "Chemistry" (Or.inl rfl) rfl
     (by decide),
   (c8_subject_resolution none _).2.2 (Or.inl rfl) (Or.inl rfl)⟩

/-- The URLs `loadSubjectWithFallback` may fetch for a mapped subject are
exactly the current-period archive URL and the live URL. -/
theorem lswf_log_subset (env : String → Option String) (subject : String)
    (p : Nat) (fn : String) (hfn : lookupS SUBJECT_FILES subject = some fn) :
    ∀ u ∈ (loadSubjectWithFallback env subject (some p)).2,
      u = archiveUrl p fn ∨ u = liveUrl fn := by
  intro u hu
  unfold loadSubjectWithFallback at hu
  rw [hfn] at hu
  by_cases hp : 1 ≤ p
  · cases henv : env (archiveUrl p fn) with
    | some body =>
      by_cases hq : (parse body subject).isEmpty = true
      · cases henv2 : env (liveUrl fn) with
        | some b2 =>
          by_cases hq2 : (parse b2 subject).isEmpty = true
          · simp [hp, henv, hq, henv2, hq2] at hu
            tauto
          · simp [hp, henv, hq, henv2, hq2] at hu
            tauto
        | none =>
          simp [hp, henv, hq, henv2] at hu
          tauto
      · simp [hp, henv, hq] at hu
        tauto
    | none =>
      cases henv2 : env (liveUrl fn) with
      | some b2 =>
        by_cases hq2 : (parse b2 subject).isEmpty = true
        · simp [hp, henv, henv2, hq2] at hu
          tauto
        · simp [hp, henv, henv2, hq2] at hu
          tauto
      | none =>
        simp [hp, henv, henv2] at hu
        tauto
  · cases henv2 : env (liveUrl fn) with
    | some b2 =>
      by_cases hq2 : (parse b2 subject).isEmpty = true
      · simp [hp, henv2, hq2] at hu
        tauto
      · simp [hp, henv2, hq2] at hu
        tauto
    | none =>
      simp [hp, henv2] at hu
      tauto

/-- C6: for every positive period the archive day range is the zero-padded
rendering of `dayStart = 2·period − 1` and `dayEnd = 2·period`; period 3
maps to `"05-06"` and period 1 to `"01-02"`; and for period 1 no
archive-previous-period fetch is ever attempted — the only URLs fetched are
the period-1 archive URL (day range `"01-02"`) and the live URL. -/
theorem c6_period_day_range :
    periodToDayRange 3 = "05-06" ∧ periodToDayRange 1 = "01-02" ∧
    (∀ p, 1 ≤ p →
      periodToDayRange p = padTwo (2 * p - 1) ++ "-" ++ padTwo (2 * p)) ∧
    (∀ (env : String → Option String) (subject fn : String),
      lookupS SUBJECT_FILES subject = some fn →
      ∀ u ∈ (loadSubjectWithFallback env subject (some 1)).2,
        u = archiveUrl 1 fn ∨ u = liveUrl fn) := by
  refine ⟨by decide, by decide, ?_, ?_⟩
  · intro p hp
    have h2 : 2 * p - 1 + 1 = 2 * p := by omega
    simp only [periodToDayRange]
    rw [show p * 2 = 2 * p from Nat.mul_comm p 2, h2]
  · intro env subject fn hfn
    exact lswf_log_subset env subject 1 fn hfn

theorem c6_witness :
    (1 ≤ 3 ∧
      periodToDayRange 3 = padTwo (2 * 3 - 1) ++ "-" ++ padTwo (2 * 3)) ∧
    lookupS SUBJECT_FILES "Physics" = some "JAMB_Physics_Q1-35.txt" ∧
    ((archiveUrl 1 "JAMB_Physics_Q1-35.txt" = archiveUrl 1 "JAMB_Physics_Q1-35.txt" ∨
      archiveUrl 1 "JAMB_Physics_Q1-35.txt" = liveUrl "JAMB_Physics_Q1-35.txt") ∧
     (loadSubjectWithFallback envAllFail "Physics" (some 1)).2 =
       [archiveUrl 1 "JAMB_Physics_Q1-35.txt", liveUrl "JAMB_Physics_Q1-35.txt"]) :=
  ⟨⟨by decide, c6_period_day_range.2.2.1 3 (by decide)⟩, by decide,
   c6_period_day_range.2.2.2 envAllFail "Physics" "JAMB_Physics_Q1-35.txt"
     (by decide) (archiveUrl 1 "JAMB_Physics_Q1-35.txt") (by decide),
   by decide⟩

/-- C2: source tiers are attempted strictly in order and the first tier with
at least one parsed record short-circuits the resolution — if the archive
tier yields `n ≥ 1` records the result is exactly those records and the live
tier is never fetched, whatever it would have returned; and when the
in-memory embedded payload is non-empty, its conversion is returned with no
network fetch at all. -/
theorem c2_tier_order :
    (∀ (env : String → Option String) (subject fn body : String) (p : Nat),
      lookupS SUBJECT_FILES subject = some fn → 1 ≤ p →
      env (archiveUrl p fn) = some body → parse body subject ≠ [] →
      loadSubjectWithFallback env subject (some p) =
        (parse body subject, [archiveUrl p fn])) ∧
    (∀ (env : LauncherEnv) (cache : Cache) (l : List EmbeddedQ),
      env.quizData = some l → l ≠ [] →
      initializeFromUrl env cache =
        (Except.ok (convertEmbeddedData env.quizMetadata l), [])) := by
  constructor
  · intro env subject fn body p hfn hp henv hne
    unfold loadSubjectWithFallback
    rw [hfn]
    simp [hp, henv, hne]
  · intro env cache l hqd hne
    unfold initializeFromUrl
    rw [hqd]
    simp [hne]

theorem c2_witness :
    loadSubjectWithFallback envArchiveWins "Physics" (some 3) =
      (parse bodyOneQ "Physics", [archiveUrl 3 "JAMB_Physics_Q1-35.txt"]) ∧
    (parse bodyOneQ "Physics").length = 1 ∧
    (parse bodyTwoQ "Physics").length = 2 ∧
    envArchiveWins (liveUrl "JAMB_Physics_Q1-35.txt") = some bodyTwoQ ∧
    initializeFromUrl envEmbedded [] =
      (Except.ok (convertEmbeddedData envEmbedded.quizMetadata [embeddedQ1]), []) :=
  ⟨c2_tier_order.1 envArchiveWins "Physics" "JAMB_Physics_Q1-35.txt" bodyOneQ 3
     (by decide) (by decide) (by decide) (by decide),
   by decide, by decide, by decide,
   c2_tier_order.2 envEmbedded [] [embeddedQ1] rfl (by decide)⟩

theorem lookupS_mem {α : Type} {m : List (String × α)} {k : String} {v : α}
    (h : lookupS m k = some v) : (k, v) ∈ m := by
  induction m with
  | nil => simp [lookupS] at h
  | cons kv rest ih =>
    obtain ⟨k', v'⟩ := kv
    by_cases he : k' = k
    · simp only [lookupS, if_pos he] at h
      injection h with h
      subst he
      rw [← h]
      exact List.mem_cons_self _ _
    · simp only [lookupS, if_neg he] at h
      exact List.mem_cons_of_mem _ (ih h)

/-- Spec of `loadSubject` under a cache whose entries agree with `subjectYield`:
a success returns exactly the subject's yield, a failure means the yield is
empty, and the cache stays consistent. -/
theorem loadSubject_spec {env : String → Option String} {c : Cache}
    (subject : String)
    (hc : ∀ pr ∈ c, pr.2 = subjectYield env pr.1) :
    (∀ qs c2 log, loadSubject env c subject = (Except.ok qs, c2, log) →
      qs = subjectYield env subject ∧
      ∀ pr ∈ c2, pr.2 = subjectYield env pr.1) ∧
    (∀ e c2 log, loadSubject env c subject = (Except.error e, c2, log) →
      subjectYield env subject = [] ∧
      ∀ pr ∈ c2, pr.2 = subjectYield env pr.1) := by
  cases hcache : lookupS c subject with
  | some qs0 =>
    have heq : loadSubject env c subject = (Except.ok qs0, c, []) := by
      simp [loadSubject, hcache]
    refine ⟨?_, ?_⟩
    · intro qs c2 log h
      rw [heq] at h
      injection h with h1 h2
      injection h2 with h2 h3
      injection h1 with h1
      subst h1
      subst h2
      exact ⟨hc _ (lookupS_mem hcache), hc⟩
    · intro e c2 log h
      rw [heq] at h
      exact absurd h (by simp)
  | none =>
    cases hurl : getQuestionUrl subject with
    | error e0 =>
      have heq : loadSubject env c subject = (Except.error e0, c, []) := by
        simp [loadSubject, hcache, hurl]
      have hy : subjectYield env subject = [] := by
        simp [subjectYield, hurl]
      refine ⟨?_, ?_⟩
      · intro qs c2 log h
        rw [heq] at h
        exact absurd h (by simp)
      · intro e c2 log h
        rw [heq] at h
        injection h with h1 h2
        injection h2 with h2 h3
        subst h2
        exact ⟨hy, hc⟩
    | ok url =>
      cases henv : env url with
      | none =>
        have heq : loadSubject env c subject = (Except.error "HTTP error", c, [url]) := by
          simp [loadSubject, hcache, hurl, henv]
        have hy : subjectYield env subject = [] := by
          simp [subjectYield, hurl, henv]
        refine ⟨?_, ?_⟩
        · intro qs c2 log h
          rw [heq] at h
          exact absurd h (by simp)
        · intro e c2 log h
          rw [heq] at h
          injection h with h1 h2
          injection h2 with h2 h3
          subst h2
          exact ⟨hy, hc⟩
      | some text =>
        have heq : loadSubject env c subject =
            (Except.ok (parse text subject),
             c ++ [(subject, parse text subject)], [url]) := by
          simp [loadSubject, hcache, hurl, henv]
        have hy : subjectYield env subject = parse text subject := by
          simp [subjectYield, hurl, henv]
        refine ⟨?_, ?_⟩
        · intro qs c2 log h
          rw [heq] at h
          injection h with h1 h2
          injection h2 with h2 h3
          injection h1 with h1
          subst h1
          subst h2
          refine ⟨hy.symm, ?_⟩
          intro pr hpr
          rcases List.mem_append.1 hpr with hpr | hpr
          · exact hc pr hpr
          · rw [List.mem_singleton.1 hpr, hy]
        · intro e c2 log h
          rw [heq] at h
          exact absurd h (by simp)

/-- The `loadCluster` loop accumulates exactly the concatenation of the
per-subject yields and keeps the cache consistent. -/
theorem clusterStep_fold (env : String → Option String) :
    ∀ (ss : List String) (acc : ClusterAcc),
    (∀ pr ∈ acc.cache, pr.2 = subjectYield env pr.1) →
    (ss.foldl (clusterStep env) acc).questions =
      acc.questions ++ (ss.map (subjectYield env)).flatten ∧
    (∀ pr ∈ (ss.foldl (clusterStep env) acc).cache,
      pr.2 = subjectYield env pr.1) := by
  intro ss
  induction ss with
  | nil =>
    intro acc hc
    simpa using hc
  | cons s tail ih =>
    intro acc hc
    simp only [List.foldl_cons, List.map_cons, List.flatten_cons]
    have hspec := loadSubject_spec s hc
    cases hload : loadSubject env acc.cache s with
    | mk res rest =>
      obtain ⟨c', log⟩ := rest
      cases res with
      | ok qs =>
        obtain ⟨hqs, hc'⟩ := hspec.1 qs c' log hload
        have hstep : clusterStep env acc s =
            { acc with questions := acc.questions ++ qs, cache := c'
                       log := acc.log ++ log } := by
          unfold clusterStep
          rw [hload]
        rw [hstep]
        obtain ⟨ih1, ih2⟩ := ih
          { acc with questions := acc.questions ++ qs, cache := c'
                     log := acc.log ++ log } hc'
        refine ⟨?_, ih2⟩
        rw [ih1]
        simp [hqs, List.append_assoc]
      | error e =>
        obtain ⟨hy, hc'⟩ := hspec.2 e c' log hload
        have hstep : clusterStep env acc s =
            { acc with errors := acc.errors ++ [(s, e)], cache := c'
                       log := acc.log ++ log } := by
          unfold clusterStep
          rw [hload]
        rw [hstep]
        obtain ⟨ih1, ih2⟩ := ih
          { acc with errors := acc.errors ++ [(s, e)], cache := c'
                     log := acc.log ++ log } hc'
        refine ⟨?_, ih2⟩
        rw [ih1]
        simp [hy]

/-- C1: on a fresh launcher, `loadCluster` throws exactly the exhaustion
error `"No questions loaded for cluster."` — and it does so precisely when
every requested subject yields zero records (unknown subject, failed fetch,
or an empty parse); in every other case it returns a non-empty question
list; the exhaustion error is the only error it surfaces (per-subject
failures are caught and recorded in the `errors` component). -/
theorem c1_cluster_exhaustion (env : String → Option String)
    (subjects : List String) :
    ((loadCluster env [] subjects).1 =
        Except.error "No questions loaded for cluster." ↔
      ∀ s ∈ subjects, subjectYield env s = []) ∧
    (∀ e, (loadCluster env [] subjects).1 = Except.error e →
      e = "No questions loaded for cluster.") ∧
    (∀ qs errs, (loadCluster env [] subjects).1 = Except.ok (qs, errs) →
      qs ≠ []) := by
  have hinit : ∀ pr ∈ ([] : Cache), pr.2 = subjectYield env pr.1 := by
    intro pr hpr
    simp at hpr
  obtain ⟨hq, -⟩ := clusterStep_fold env subjects ⟨[], [], [], []⟩ hinit
  simp only [List.nil_append] at hq
  have hiff : (subjects.foldl (clusterStep env) ⟨[], [], [], []⟩).questions = []
      ↔ ∀ s ∈ subjects, subjectYield env s = [] := by
    rw [hq, List.flatten_eq_nil_iff]
    constructor
    · intro hall s hs
      exact hall _ (List.mem_map_of_mem _ hs)
    · intro hall l hl
      obtain ⟨s, hs, rfl⟩ := List.mem_map.1 hl
      exact hall s hs
  simp only [loadCluster]
  by_cases hemp :
      (subjects.foldl (clusterStep env) ⟨[], [], [], []⟩).questions.isEmpty = true
  · rw [if_pos hemp]
    rw [List.isEmpty_iff] at hemp
    refine ⟨?_, ?_, ?_⟩
    · simpa using hiff.1 hemp
    · intro e he
      injection he with he
      exact he.symm
    · intro qs errs habs
      exact absurd habs (by simp)
  · rw [if_neg hemp]
    rw [List.isEmpty_iff] at hemp
    refine ⟨?_, ?_, ?_⟩
    · constructor
      · intro habs
        exact absurd habs (by simp)
      · intro hall
        exact absurd (hiff.2 hall) hemp
    · intro e he
      exact absurd he (by simp)
    · intro qs errs hok
      injection hok with hok
      injection hok with hok1 hok2
      rw [← hok1]
      exact hemp

theorem c1_witness :
    subjectYield envAllFail "Physics" = [] ∧
    (loadCluster envAllFail [] ["Physics"]).1 =
      Except.error "No questions loaded for cluster." ∧
    (loadCluster envGithubPhysics [] ["Physics"]).1 =
      Except.ok (parse bodyOneQ "Physics", []) ∧
    parse bodyOneQ "Physics" ≠ [] :=
  ⟨by decide,
   (c1_cluster_exhaustion envAllFail ["Physics"]).1.2
     (by intro s hs; rw [List.mem_singleton.1 hs]; decide),
   by rfl,
   (c1_cluster_exhaustion envGithubPhysics ["Physics"]).2.2
     (parse bodyOneQ "Physics") [] (by rfl)⟩

theorem c4_witness :
    goodPayload "What is 2+2?" ∧ digitsToNat ['1', '2'] = 12 ∧
    parse (singleQuestionDoc ['1', '2'] "What is 2+2?" "w" "x" "y" "z" "A"
        "Because.") "Physics" =
      [{ id := digitsToNat ['1', '2'], subject := "Physics"
         text := "What is 2+2?"
         options := [("A", "w"), ("B", "x"), ("C", "y"), ("D", "z")]
         answer := some "A", explanation := "Because.", exception := "" }] :=
  ⟨by decide, by decide,
   c4_parser_roundtrip "Physics" ['1', '2'] "What is 2+2?" "w" "x" "y" "z" "A"
     "Because." (by decide) (by decide) (by decide) (by decide) (by decide)
     (by decide) (by decide) (by decide) (by decide) (by decide) (by decide)
     (by decide) (by decide) (by decide) (by decide) (by decide)⟩
